import Mathlib

set_option autoImplicit false

/-!
Verification development for the vectorized card-table subsystem of the
pyNastran sample (bdf_vectorized3): columnar card storage, ragged
offset/count arrays, load/constraint reduction, and fixed-width output
formatting.  Definitions are shallow embeddings of the Python source in
`pyNastran/dev/bdf_vectorized3/cards/`; machine floats are modelled as
rationals (the claims under study only use exact arithmetic: products of
scale factors and comparisons with zero), NumPy integer arrays as lists of
integers, and Python exceptions as `Except String`.
-/

namespace PyNastranSpec

/-! ## Generic ragged-array helpers

`make_idim` and `hslice_by_idim` live in `cards/base_card.py`, which is not
part of the sample.  Modelled from the spec: section 3 defines the ragged
pattern as a flat concatenated value array plus a per-row count array, with
per-row slice boundaries derived as a prefix-sum `idim[i] = (offset_i,
offset_i + count_i)`; section 4.1 defines slicing as re-slicing the flat
array per selected row in the given order.
-/

/-- Modelled from the spec: prefix-sum boundaries starting at `offset`. -/
def makeIdimFrom (offset : Nat) : List Nat → List (Nat × Nat)
  | [] => []
  | c :: rest => (offset, offset + c) :: makeIdimFrom (offset + c) rest

/-- Modelled from the spec: `make_idim` (base_card.py, outside the sample)
turns the per-row count array into `(offset, offset + count)` pairs. -/
def makeIdim (counts : List Nat) : List (Nat × Nat) :=
  makeIdimFrom 0 counts

/-- Python slice `flat[i0:i1]`. -/
def sliceFlat {α : Type} (flat : List α) (p : Nat × Nat) : List α :=
  (flat.take p.2).drop p.1

/-- NumPy fancy indexing `arr[i]` for an index list `i` (indices in range). -/
def gather {α : Type} (l : List α) (i : List Nat) : List α :=
  i.filterMap (fun j => l.get? j)

/-- Modelled from the spec: `hslice_by_idim` (base_card.py, outside the
sample) concatenates, for each selected row, that row slice of the flat
ragged array. -/
def hsliceByIdim {α : Type} (i : List Nat) (idim : List (Nat × Nat)) (flat : List α) : List α :=
  ((gather idim i).map (sliceFlat flat)).flatten

/-- Insert `x` into an ascending duplicate-free list, keeping it ascending
and duplicate-free. -/
def insertSortedDedup (x : Int) : List Int → List Int
  | [] => [x]
  | y :: ys =>
    if x < y then x :: y :: ys
    else if x = y then y :: ys
    else y :: insertSortedDedup x ys

/-- `np.unique`: ascending sorted list of the distinct values. -/
def npUnique (l : List Int) : List Int :=
  l.foldr insertSortedDedup []

/-- Stable insertion of index `j` into an index list ordered by `key`. -/
def argInsert (key : List Int) (j : Nat) : List Nat → List Nat
  | [] => [j]
  | k :: rest =>
    if key.getD j 0 < key.getD k 0 ∨ (key.getD j 0 = key.getD k 0 ∧ j ≤ k) then
      j :: k :: rest
    else
      k :: argInsert key j rest

def argsortAux (key : List Int) : List Nat → List Nat
  | [] => []
  | j :: rest => argInsert key j (argsortAux key rest)

/-- `np.argsort`: a permutation of `0..n-1` listing positions in ascending
order of `key` (deterministic; ties broken by position). -/
def argsort (key : List Int) : List Nat :=
  argsortAux key (List.range key.length)

/-! ## SET1 card table (`cards/bdf_sets.py`)

Columnar storage of `SET1.parse_cards` / `_save`: `set_id`, `is_skin`,
`num_ids` (per-row count) and `ids` (flat ragged array).  The Python class
body contains two definitions of `__apply_slice__`; the second one (lines
1026-1037) is the effective method, and it assigns the re-sliced flat array
to `set_card.dims` — an attribute nothing in `SET1` ever reads — while
`set_card.ids` is left untouched.  The embedding keeps that `dims` field to
stay faithful to the source.
-/

structure SET1Table where
  n : Nat
  set_id : List Int
  is_skin : List Bool
  num_ids : List Nat
  ids : List Int
  dims : List Int
  deriving Repr, DecidableEq

/-- `SET1.__init__`: all arrays empty (`dims` does not exist until the
buggy slice assigns it; we model the missing attribute as the empty list,
which nothing reads anyway). -/
def set1Empty : SET1Table :=
  { n := 0, set_id := [], is_skin := [], num_ids := [], ids := [], dims := [] }

/-- The effective `SET1.__apply_slice__` (bdf_sets.py lines 1026-1037):
permutes `set_id`, `is_skin`, `num_ids` by `i`, but writes the re-sliced
flat array to `set_card.dims` instead of `set_card.ids`; the target keeps
whatever `ids` it had before. -/
def set1ApplySlice (src tgt : SET1Table) (i : List Nat) : SET1Table :=
  { tgt with
    n := i.length
    set_id := gather src.set_id i
    is_skin := gather src.is_skin i
    dims := hsliceByIdim i (makeIdim src.num_ids) src.ids
    num_ids := gather src.num_ids i }

/-- `SET1.sort`: no-op when `np.unique(set_id)` already equals `set_id`,
otherwise applies the (buggy) slice to itself with `np.argsort(set_id)`. -/
def set1Sort (t : SET1Table) : SET1Table :=
  if npUnique t.set_id = t.set_id then t
  else set1ApplySlice t t (argsort t.set_id)

/-- `SET1.parse_cards` followed by `_save` and the final `self.sort()`.
A staged card is `(sid, is_skin, ids)` with THRU ranges already expanded
(`expand_thru` is the external range-expansion collaborator of the spec). -/
def set1ParseCards (cards : List (Int × Bool × List Int)) : SET1Table :=
  set1Sort
    { n := cards.length
      set_id := cards.map (fun c => c.1)
      is_skin := cards.map (fun c => c.2.1)
      num_ids := cards.map (fun c => c.2.2.length)
      ids := (cards.map (fun c => c.2.2)).flatten
      dims := [] }

/-- Base-class `slice_card_by_index` for SET1.  Modelled from the spec
(section 4.1: slicing returns a new instance containing exactly the
selected rows) following the pattern the sample shows in
`DEFORM.slice_card_by_index` / `SPC1.slice_card_by_index`: construct a
fresh table and apply `__apply_slice__` to it. -/
def set1SliceByIndex (t : SET1Table) (i : List Nat) : SET1Table :=
  set1ApplySlice t set1Empty i

/-- The id list of row `r`, read the way `SET1.write_file` reads it:
`ids[inid0:inid1]` with boundaries derived from `num_ids`. -/
def set1RowIds (t : SET1Table) (r : Nat) : List Int :=
  match (makeIdim t.num_ids).get? r with
  | some p => sliceFlat t.ids p
  | none => []

/-! ## Python dictionaries

The reduction functions build and probe Python `dict`s keyed by integer
ids.  A `dict` is modelled as an insertion-ordered association list with
unique keys: lookup scans for the key, update replaces the value in place,
insertion appends at the end. -/

abbrev Dict (α : Type) : Type := List (Int × α)

def dlookup {α : Type} (k : Int) : Dict α → Option α
  | [] => none
  | (k2, v) :: rest => if k2 = k then some v else dlookup k rest

/-- Python `k in d`. -/
def dmem {α : Type} (k : Int) (d : Dict α) : Bool :=
  (dlookup k d).isSome

/-- Python `d[k] = v`: replace in place if the key exists, append else. -/
def dset {α : Type} (k : Int) (v : α) : Dict α → Dict α
  | [] => [(k, v)]
  | (k2, v2) :: rest => if k2 = k then (k2, v) :: rest else (k2, v2) :: dset k v rest

/-! ## LOAD card table and `get_reduced_loads` (`cards/loads/static_loads.py`)

`LOAD` stores per row a primary `load_id`, a global `scale`, and a ragged
member list given by `nloads` (per-row count), the flat `load_ids` and the
flat member `scale_factors`.  The concrete-load map `loads_by_load_id`
(built by scanning the model registry, an external collaborator) is taken
as an input dictionary from load id to the list of resolved concrete load
objects; the element type of that list is an opaque parameter `L` since
`get_reduced_loads` only passes the resolved lists through. -/

structure LOADTable where
  load_id : List Int
  scale : List ℚ
  nloads : List Nat
  load_ids : List Int
  scale_factors : List ℚ
  deriving Repr, DecidableEq

/-- Inner loop of `get_reduced_loads` over one aggregate row: the members
`(scale_factor, load_id)` with the global scale already multiplied in.  A
member whose id is in the concrete map is appended as `(scale_factor,
loads_found)`; a member found with an empty resolved list raises (the
source overwrites `stop_on_failure` with `True` before the loop, so the
raise is unconditional); a member id absent from the map — whether or not
it names another aggregate row — is only logged and skipped. -/
def grlMembers {L : Type} (map : Dict (List L)) (filterZero : Bool) :
    List (ℚ × Int) → Except String (List (ℚ × List L))
  | [] => .ok []
  | (sf, lid) :: rest =>
    if sf = 0 ∧ filterZero then grlMembers map filterZero rest
    else
      match dlookup lid map with
      | some found =>
        if found.isEmpty then
          .error "No referenced loads found"
        else
          match grlMembers map filterZero rest with
          | .ok tail => .ok ((sf, found) :: tail)
          | .error e => .error e
      | none => grlMembers map filterZero rest

/-- Outer loop of `get_reduced_loads` over the aggregate rows
`(sid, global_scale, (iload0, iload1))`.  Faithful to the source, the
global scale of row `r` is drawn from the flat member array
`load.scale_factors` (the zip in the source reads
`zip(load.load_id, load.scale_factors, load.iload)`), not from
`load.scale`.  A row whose accumulated member list is empty is dropped;
otherwise the result dict maps the row id to the list. -/
def grlRows {L : Type} (map : Dict (List L)) (filterZero : Bool)
    (flatScales : List ℚ) (flatIds : List Int) :
    List (Int × ℚ × Nat × Nat) → Dict (List (ℚ × List L)) →
      Except String (Dict (List (ℚ × List L)))
  | [], acc => .ok acc
  | (sid, gscale, i0, i1) :: rest, acc =>
    if gscale = 0 ∧ filterZero then
      grlRows map filterZero flatScales flatIds rest acc
    else
      let sfs := (sliceFlat flatScales (i0, i1)).map (fun s => gscale * s)
      let lids := sliceFlat flatIds (i0, i1)
      match grlMembers map filterZero (sfs.zip lids) with
      | .error e => .error e
      | .ok li =>
        if li.isEmpty then grlRows map filterZero flatScales flatIds rest acc
        else grlRows map filterZero flatScales flatIds rest (dset sid li acc)

/-- Final loop of `get_reduced_loads`: every map entry whose id is not yet
a key of the result is added under its own id with unit scale. -/
def grlTrailing {L : Type} (acc : Dict (List (ℚ × List L))) :
    Dict (List L) → Dict (List (ℚ × List L))
  | [] => acc
  | (lid, loads) :: rest =>
    if dmem lid acc then grlTrailing acc rest
    else grlTrailing (dset lid [(1, loads)] acc) rest

/-- `get_reduced_loads(load, ...)` (static_loads.py lines 1631-1691).  The
`stop_on_failure` argument is accepted but the source immediately rebinds
it to `True`, so it has no effect; `remove_missing_loads` is unused by the
source body and omitted.  An empty table returns the empty dict at once. -/
def getReducedLoads {L : Type} (tbl : LOADTable) (map : Dict (List L))
    (filterZero : Bool) (stopOnFailure : Bool) :
    Except String (Dict (List (ℚ × List L))) :=
  if tbl.load_id.isEmpty then .ok []
  else
    let rows := (tbl.load_id.zip (tbl.scale_factors.zip (makeIdim tbl.nloads))).map
      (fun r => (r.1, r.2.1, r.2.2.1, r.2.2.2))
    match grlRows map filterZero tbl.scale_factors tbl.load_ids rows [] with
    | .error e => .error e
    | .ok d => .ok (grlTrailing d map)

/-! ## SPCADD/MPCADD aggregate table and `get_reduced_spcs`
(`cards/constraints.py`)

The shared `ADD` base stores a primary `sid` column, the flat member array
`sids` and the per-row member count `nsids`.  `SPCADD.get_reduced_spcs`
resolves each member against the dictionary built by `get_spcs_by_spc_id`
(a plain `dict`, so a missing key raises `KeyError`); as in the load
reduction, the source rebinds `stop_on_failure` to `True` on entry. -/

structure ADDTable where
  n : Nat
  sid : List Int
  sids : List Int
  nsids : List Nat
  deriving Repr, DecidableEq

/-- The aggregate rows `(sid, (idim0, idim1))` that
`SPCADD.get_reduced_spcs` iterates over. -/
def addRefRows (tbl : ADDTable) : List (Int × Nat × Nat) :=
  (tbl.sid.zip (makeIdim tbl.nsids)).map (fun r => (r.1, r.2.1, r.2.2))

/-- Member resolution for one SPCADD row: `spc_by_spc_id[spc_idi]` on a
plain dict raises `KeyError` for a missing id; a present id with an empty
list raises (`stop_on_failure` is rebound to `True`); otherwise the found
list is appended. -/
def grsMembers {S : Type} (map : Dict (List S)) :
    List Int → Except String (List (List S))
  | [] => .ok []
  | m :: rest =>
    match dlookup m map with
    | none => .error "KeyError"
    | some found =>
      if found.isEmpty then .error "No referenced SPCs found"
      else
        match grsMembers map rest with
        | .ok tail => .ok (found :: tail)
        | .error e => .error e

def grsRows {S : Type} (map : Dict (List S)) (flatSids : List Int) :
    List (Int × Nat × Nat) → Dict (List (List S)) →
      Except String (Dict (List (List S)))
  | [], acc => .ok acc
  | (sid, i0, i1) :: rest, acc =>
    match grsMembers map (sliceFlat flatSids (i0, i1)) with
    | .error e => .error e
    | .ok li => grsRows map flatSids rest (dset sid li acc)

/-- `SPCADD.get_reduced_spcs` (constraints.py lines 638-666): the
`stop_on_failure` argument is rebound to `True` by the first statement of
the body, so the parameter has no effect. -/
def getReducedSpcs {S : Type} (tbl : ADDTable) (map : Dict (List S))
    (stopOnFailure : Bool) : Except String (Dict (List (List S))) :=
  grsRows map tbl.sids (addRefRows tbl) []

/-! ## Multi-batch `_save` paths (claim C4)

`parse_cards` may run once per staged batch; each `_save` is supposed to
concatenate the new batch onto the existing columnar arrays. -/

/-- `ADD._save` (constraints.py lines 546-556).  When the table already
holds rows, the source concatenates `np.hstack([self.sid, sids])` — the
flat member array — onto the primary id column instead of the new
batch's `sid` column, and sets `n = len(sid)` from that result. -/
def addSave (old : ADDTable) (sid sids : List Int) (nsids : List Nat) : ADDTable :=
  if old.sid.isEmpty then
    { n := sid.length, sid := sid, sids := sids, nsids := nsids }
  else
    let sid2 := old.sid ++ sids
    let sids2 := old.sids ++ sids
    let nsids2 := old.nsids ++ nsids
    { n := sid2.length, sid := sid2, sids := sids2, nsids := nsids2 }

def addEmpty : ADDTable := { n := 0, sid := [], sids := [], nsids := [] }

/-- The columnar arrays of a MAT1 table (materials.py). -/
structure MAT1Arrays where
  material_id : List Int
  E : List ℚ
  G : List ℚ
  nu : List ℚ
  rho : List ℚ
  alpha : List ℚ
  tref : List ℚ
  ge : List ℚ
  Ss : List ℚ
  St : List ℚ
  Sc : List ℚ
  mcsid : List Int
  deriving Repr, DecidableEq

def mat1Empty : MAT1Arrays :=
  { material_id := [], E := [], G := [], nu := [], rho := [], alpha := [],
    tref := [], ge := [], Ss := [], St := [], Sc := [], mcsid := [] }

/-- `MAT1._save` (materials.py lines 202-230).  In the append branch the
source concatenates `material_id = np.hstack([self.material_id,
material_id])` twice — once at the top of the branch and once again
between the `ge` and `Ss` lines — so the old ids end up duplicated in the
primary id column while every other array is appended once. -/
def mat1Save (old new : MAT1Arrays) : MAT1Arrays :=
  if old.material_id.isEmpty then new
  else
    let material_id1 := old.material_id ++ new.material_id
    let material_id2 := old.material_id ++ material_id1
    { material_id := material_id2
      E := old.E ++ new.E
      G := old.G ++ new.G
      nu := old.nu ++ new.nu
      rho := old.rho ++ new.rho
      alpha := old.alpha ++ new.alpha
      tref := old.tref ++ new.tref
      ge := old.ge ++ new.ge
      Ss := old.Ss ++ new.Ss
      St := old.St ++ new.St
      Sc := old.Sc ++ new.Sc
      mcsid := old.mcsid ++ new.mcsid }

/-- The columnar arrays of a CONM2 table (elements/mass.py). -/
structure CONM2Arrays where
  element_id : List Int
  mass : List ℚ
  coord_id : List Int
  node_id : List Int
  xyz_offset : List (ℚ × ℚ × ℚ)
  inertia : List (ℚ × ℚ × ℚ × ℚ × ℚ × ℚ)
  deriving Repr, DecidableEq

/-- `CONM2._save` (elements/mass.py lines 311-320): any attempt to save a
second batch into a populated table raises `RuntimeError` outright. -/
def conm2Save (old new : CONM2Arrays) : Except String CONM2Arrays :=
  if old.element_id.isEmpty then .ok new else .error "RuntimeError"

/-! ## `add_card` grammars packing several logical rows per line (claim C5)

A tokenized card is a list of optional fields (index 0 is the card tag);
typed accessors mirror the Field Reader collaborator (`integer`,
`double`), and Python truthiness guards the optional repeated groups. -/

inductive BulkField where
  | i : Int → BulkField
  | q : ℚ → BulkField
  | s : String → BulkField
  deriving Repr, DecidableEq

def CardT : Type := List (Option BulkField)

/-- `card.field(k)`: the raw field, `None` when past the end. -/
def fieldAt (c : CardT) (k : Nat) : Option BulkField :=
  (c.get? k).getD none

/-- `integer(card, k, name)`: a required typed integer field. -/
def intAt (c : CardT) (k : Nat) : Except String Int :=
  match fieldAt c k with
  | some (.i z) => .ok z
  | _ => .error "parse error: integer expected"

/-- `double(card, k, name)`: a required typed float field. -/
def ratAt (c : CardT) (k : Nat) : Except String ℚ :=
  match fieldAt c k with
  | some (.q v) => .ok v
  | _ => .error "parse error: double expected"

/-- Python truthiness of a raw field (`if card.field(k):`). -/
def truthy : Option BulkField → Bool
  | none => false
  | some (.i z) => z != 0
  | some (.q v) => v != 0
  | some (.s st) => st != ""

/-- One optional element/value pair of a DEFORM line at positions
`(ke, kd)`: when the guard field is truthy, a further tuple is staged and
`n` is incremented once more. -/
def deformPair (c : CardT) (sid : Int) (ke kd : Nat)
    (s : List (Int × Int × ℚ) × Nat) : Except String (List (Int × Int × ℚ) × Nat) :=
  if truthy (fieldAt c ke) then
    match intAt c ke, ratAt c kd with
    | .ok eid, .ok d => .ok (s.1 ++ [(sid, eid, d)], s.2 + 1)
    | .error e, _ => .error e
    | _, .error e => .error e
  else .ok s

/-- `DEFORM.add_card` (static_loads.py lines 110-138): stages one tuple
for the required pair and one per present optional pair, incrementing `n`
alongside each append.  Returns the staged tuples and the total increment
of `n`. -/
def deformAddCard (c : CardT) : Except String (List (Int × Int × ℚ) × Nat) :=
  match intAt c 1, intAt c 2, ratAt c 3 with
  | .ok sid, .ok eid1, .ok d1 =>
    match deformPair c sid 4 5 ([(sid, eid1, d1)], 1) with
    | .ok s1 => deformPair c sid 6 7 s1
    | .error e => .error e
  | .error e, _, _ => .error e
  | _, .error e, _ => .error e
  | _, _, .error e => .error e

/-- `PLOTEL.add_card` (elements/plot.py lines 66-90): stages one element
tuple, optionally a second when field 5 is truthy, and then performs one
more unconditional `self.n += 1` after the conditional block.  Returns the
staged tuples and the total increment of `n`. -/
def plotelAddCard (c : CardT) : Except String (List (Int × Int × Int) × Nat) :=
  match intAt c 1, intAt c 2, intAt c 3 with
  | .ok eid, .ok g1, .ok g2 =>
    let step : Except String (List (Int × Int × Int) × Nat) :=
      if truthy (fieldAt c 5) then
        match intAt c 5, intAt c 6, intAt c 7 with
        | .ok eid2, .ok g6, .ok g7 =>
          if c.length ≤ 8 then .ok ([(eid, g1, g2), (eid2, g6, g7)], 2)
          else .error "assert len(card) <= 8"
        | .error e, _, _ => .error e
        | _, .error e, _ => .error e
        | _, _, .error e => .error e
      else
        if c.length ≤ 5 then .ok ([(eid, g1, g2)], 1)
        else .error "assert len(card) <= 5"
    match step with
    | .ok s => .ok (s.1, s.2 + 1)
    | .error e => .error e
  | .error e, _, _ => .error e
  | _, .error e, _ => .error e
  | _, _, .error e => .error e

/-! ## MPCADD field-width promotion (claim C7) -/

/-- `np.max` of a nonempty integer array (the write path returns before
reaching it on an empty table; the empty case is given the value 0). -/
def listMax : List Int → Int
  | [] => 0
  | x :: xs => xs.foldl max x

/-- The maximum id the MPCADD width check looks at:
`max(self.mpc_id.max(), self.mpc_ids.max())`. -/
def addMaxId (t : ADDTable) : Int :=
  max (listMax t.sid) (listMax t.sids)

/-- `MPCADD.is_small_field` (constraints.py lines 692-694). -/
def mpcaddIsSmallField (t : ADDTable) : Bool :=
  addMaxId t < 99999999

/-- The field width `MPCADD.write_file` actually uses (constraints.py
lines 696-712): `print_card_8` only when the caller asked for size 8 and
`is_small_field` holds, `print_card_16` otherwise. -/
def mpcaddPrintSize (size : Nat) (t : ADDTable) : Nat :=
  if size = 8 ∧ mpcaddIsSmallField t then 8 else 16

/-- Spec-side definition, for comparison with the source width test: a
(positive) id fits an 8-character small field exactly when it has at most
8 decimal digits, i.e. is at most 99,999,999. -/
def specFitsSmallField (i : Int) : Bool :=
  i ≤ 99999999

/-! ## MAT1 default-elision on write (claim C8) -/

/-- Modelled from the spec: `set_blank_if_default` (field_writer_8.py,
outside the sample) renders a field blank exactly when its value equals
the documented default (spec section 4.3). -/
def blankIfDefault (x default : ℚ) : Option BulkField :=
  if x = default then none else some (.q x)

/-- Modelled from the spec: the source computes
`G = set_blank_if_default(g, get_G_default(e, g, nu))` with
`get_G_default` defined outside the sample.  The spec's elision rule
blanks a field only when it equals the documented default, MAT1 documents
no default for `G`, and the spec example (section 8) keeps `G` among the
rendered required fields, so the modelled field is never blank. -/
def mat1GField (e g nu : ℚ) : Option BulkField :=
  some (.q g)

/-- The `list_fields` one row of `MAT1.write_file` renders (materials.py
lines 263-291): the `St/Sc/Ss/mcsid` group is omitted entirely when all
four equal their defaults, and the optional `rho/alpha/tref/ge` fields are
passed through the blank-if-default filter. -/
def mat1ListFields (mid : Int) (e g nu rho alpha tref ge Ss St Sc : ℚ)
    (mcsid : Int) : List (Option BulkField) :=
  let Gf := mat1GField e g nu
  let rhof := blankIfDefault rho 0
  let af := blankIfDefault alpha 0
  let treff := blankIfDefault tref 0
  let gef := blankIfDefault ge 0
  if St = 0 ∧ Sc = 0 ∧ Ss = 0 ∧ mcsid = 0 then
    [some (.s "MAT1"), some (.i mid), some (.q e), Gf, some (.q nu),
     rhof, af, treff, gef]
  else
    [some (.s "MAT1"), some (.i mid), some (.q e), Gf, some (.q nu),
     rhof, af, treff, gef,
     blankIfDefault St 0, blankIfDefault Sc 0, blankIfDefault Ss 0,
     if mcsid = 0 then none else some (.i mcsid)]

/-! ## SPCADD/MPCADD member staging (claim C10) -/

/-- The staged tuple `ADD.add_card` appends (constraints.py lines
514-522): the trailing integer fields of the line pass through
`np.unique`, which sorts ascending and removes duplicates. -/
def addStagedAddCard (sid : Int) (fields2 : List Int) : Int × List Int :=
  (sid, npUnique fields2)

/-- The staged tuple the programmatic `ADD.add` appends (constraints.py
lines 506-512): the member list is stored exactly as given. -/
def addStagedAdd (sid : Int) (sets : List Int) : Int × List Int :=
  (sid, sets)

end PyNastranSpec

namespace PyNastranSpec

/-- Claim C2 (code bug): sorting a SET1 table whose ids are out of order is
claimed to permute the ragged flat array consistently, so that each set id
keeps its id-list content.  The effective `SET1.__apply_slice__` writes the
permuted flat array to `set_card.dims` and never to `set_card.ids`, so after
`parse_cards` (which sorts) the table staged as set 2 = [10, 20], set 1 =
[30] answers [10] for set 1 instead of its original [30]. -/
theorem set1_sort_corrupts_ragged_rows :
    (set1ParseCards [(2, false, [10, 20]), (1, false, [30])]).set_id = [1, 2] ∧
    set1RowIds (set1ParseCards [(2, false, [10, 20]), (1, false, [30])]) 0 = [10] ∧
    ([10] : List Int) ≠ [30] := by
  refine ⟨by decide, by decide, by decide⟩

/-- Claim C3 (code bug): the ragged invariant `sum(num_ids) = len(ids)`
holds after `parse_cards`, but a `slice_by_index` on a SET1 table breaks it:
the sliced table receives permuted counts while its flat `ids` array stays
the fresh empty array (the slice went to the unread `dims` attribute). -/
theorem set1_slice_breaks_ragged_invariant :
    ((set1ParseCards [(1, false, [10, 20])]).num_ids.sum =
      (set1ParseCards [(1, false, [10, 20])]).ids.length) ∧
    ((set1SliceByIndex (set1ParseCards [(1, false, [10, 20])]) [0]).num_ids.sum ≠
      (set1SliceByIndex (set1ParseCards [(1, false, [10, 20])]) [0]).ids.length) := by
  refine ⟨by decide, by decide⟩

/-- Claim C1 (code bug): the claim says each resolving member of an
aggregate row is recorded with scale `S * s_i` where `S` is the row's
global scale.  The source draws `S` from the flat member-scale array
(`zip(load.load_id, load.scale_factors, load.iload)`) instead of
`load.scale`: for a single row with `scale = 2` and one member
`(3.0, 10)`, the member is recorded with scale `3 * 3 = 9`, not
`2 * 3 = 6`. -/
theorem load_reduction_global_scale_bug :
    getReducedLoads (L := Nat)
        { load_id := [1], scale := [2], nloads := [1],
          load_ids := [10], scale_factors := [3] }
        [(10, [0])] false true =
      .ok [(1, [(9, [0])]), (10, [(1, [0])])] ∧
    (9 : ℚ) = 3 * 3 ∧ (9 : ℚ) ≠ 2 * 3 := by
  refine ⟨?_, by norm_num, by norm_num⟩
  norm_num [getReducedLoads, grlRows, grlMembers, grlTrailing, dset, dmem, dlookup,
    sliceFlat, makeIdim, makeIdimFrom]

/-- Claim C4 (code bug): a second `parse_cards` batch is claimed to append
to the existing arrays keeping every parallel array at the same length.
`MAT1._save` concatenates the old `material_id` twice ([1, 1, 2] against
`E` of length 2); `ADD._save` concatenates the new batch's flat member
array into the primary `sid` column ([100, 5, 6] instead of [100, 200],
length 3 against `nsids` of length 2); `CONM2._save` raises outright on
any second batch. -/
theorem multi_batch_save_bugs :
    ((mat1Save (mat1Save mat1Empty
        { material_id := [1], E := [10], G := [4], nu := [1], rho := [0],
          alpha := [0], tref := [0], ge := [0], Ss := [0], St := [0],
          Sc := [0], mcsid := [0] })
        { material_id := [2], E := [20], G := [8], nu := [1], rho := [0],
          alpha := [0], tref := [0], ge := [0], Ss := [0], St := [0],
          Sc := [0], mcsid := [0] }).material_id = [1, 1, 2] ∧
      (mat1Save (mat1Save mat1Empty
        { material_id := [1], E := [10], G := [4], nu := [1], rho := [0],
          alpha := [0], tref := [0], ge := [0], Ss := [0], St := [0],
          Sc := [0], mcsid := [0] })
        { material_id := [2], E := [20], G := [8], nu := [1], rho := [0],
          alpha := [0], tref := [0], ge := [0], Ss := [0], St := [0],
          Sc := [0], mcsid := [0] }).E.length = 2) ∧
    ((addSave (addSave addEmpty [100] [1, 2] [2]) [200] [5, 6] [2]).sid =
        [100, 5, 6] ∧
      (addSave (addSave addEmpty [100] [1, 2] [2]) [200] [5, 6] [2]).sid ≠
        [100, 200] ∧
      (addSave (addSave addEmpty [100] [1, 2] [2]) [200] [5, 6] [2]).sid.length ≠
        (addSave (addSave addEmpty [100] [1, 2] [2]) [200] [5, 6] [2]).nsids.length) ∧
    conm2Save
        { element_id := [1], mass := [1], coord_id := [0], node_id := [2],
          xyz_offset := [(0, 0, 0)], inertia := [(0, 0, 0, 0, 0, 0)] }
        { element_id := [3], mass := [1], coord_id := [0], node_id := [4],
          xyz_offset := [(0, 0, 0)], inertia := [(0, 0, 0, 0, 0, 0)] } =
      .error "RuntimeError" := by
  refine ⟨⟨?_, ?_⟩, ⟨by decide, by decide, by decide⟩, ?_⟩ <;>
    norm_num [mat1Save, mat1Empty, conm2Save]

/-- `deformPair` stages one tuple per `n` increment, so it preserves the
property that the running increment equals the number of staged tuples. -/
theorem deformPair_preserves_count {c : CardT} {sid : Int} {ke kd : Nat}
    {s s2 : List (Int × Int × ℚ) × Nat} (hs : s.2 = s.1.length)
    (h : deformPair c sid ke kd s = .ok s2) : s2.2 = s2.1.length := by
  unfold deformPair at h
  split at h
  · split at h
    · injection h with h2
      subst h2
      simp [List.length_append, hs]
    · cases h
    · cases h
  · injection h with h2
    subst h2
    exact hs

/-- Claim C5 (code bug): one `add_card` call is claimed to increment `n`
by exactly the number of logical rows staged.  `DEFORM.add_card` does
(first conjunct, for every card); `PLOTEL.add_card` performs an extra
unconditional `self.n += 1`, so the single-element line
`PLOTEL, 10, 1, 2` stages one row yet increments `n` by 2. -/
theorem plotel_add_card_overcounts_n :
    (∀ (c : CardT) (ts : List (Int × Int × ℚ)) (k : Nat),
        deformAddCard c = .ok (ts, k) → k = ts.length) ∧
    plotelAddCard [some (.s "PLOTEL"), some (.i 10), some (.i 1), some (.i 2)] =
      .ok ([(10, 1, 2)], 2) ∧
    (2 : Nat) ≠ ([((10 : Int), (1 : Int), (2 : Int))] : List (Int × Int × Int)).length := by
  refine ⟨?_, rfl, by decide⟩
  intro c ts k h
  unfold deformAddCard at h
  split at h
  · rename_i sid eid1 d1 hsid heid hd
    split at h
    · rename_i s1 h1
      have hb : (([(sid, eid1, d1)], 1) : List (Int × Int × ℚ) × Nat).2 =
          (([(sid, eid1, d1)], 1) : List (Int × Int × ℚ) × Nat).1.length := by
        simp
      have h2 := deformPair_preserves_count (deformPair_preserves_count hb h1) h
      simpa using h2
    · cases h
  · cases h
  · cases h
  · cases h

/-- Claim C6 counterexample: the claim says that with
`stop_on_failure=True` a reference that resolves to nothing raises
immediately.  With one aggregate row referencing id 10 and an empty
concrete-load map, `get_reduced_loads(..., stop_on_failure=True)` returns
the empty dict successfully: the unresolved id is only logged as a warning
and skipped. -/
theorem load_reduction_missing_id_returns_ok :
    getReducedLoads (L := Nat)
        { load_id := [1], scale := [2], nloads := [1],
          load_ids := [10], scale_factors := [3] } [] false true = .ok [] ∧
    dlookup 10 ([] : Dict (List Nat)) = none := by
  refine ⟨?_, rfl⟩
  norm_num [getReducedLoads, grlRows, grlMembers, grlTrailing, dset, dmem, dlookup,
    sliceFlat, makeIdim, makeIdimFrom]

/-- Claim C7 counterexample: the claim says the effective width is
promoted to 16 exactly when some id does not fit an 8-character field.
A table whose largest id is 99,999,999 — 8 digits, which fits an
8-character field — is still promoted: `is_small_field` tests
`max < 99_999_999`, not `max ≤ 99_999_999`. -/
theorem mpcadd_promotes_fitting_id :
    mpcaddPrintSize 8 { n := 1, sid := [99999999], sids := [1], nsids := [1] } = 16 ∧
    (({ n := 1, sid := [99999999], sids := [1], nsids := [1] } : ADDTable).sid ++
      ({ n := 1, sid := [99999999], sids := [1], nsids := [1] } : ADDTable).sids).all
        specFitsSmallField = true := by
  refine ⟨by decide, by decide⟩

/-- Claim C8 (confirmed, modelled defaults): a MAT1 row whose optional
fields all equal their documented defaults (`rho = alpha = tref = ge = 0`,
`St = Sc = Ss = 0`, `mcsid = 0`) renders only the required fields `MAT1,
mid, E, G, nu`, with the four trailing optional slots blank and the
`St/Sc/Ss/mcsid` group omitted entirely. -/
theorem mat1_default_row_renders_required_only :
    ∀ (mid : Int) (e g nu : ℚ),
      mat1ListFields mid e g nu 0 0 0 0 0 0 0 0 =
        [some (.s "MAT1"), some (.i mid), some (.q e), some (.q g), some (.q nu),
         none, none, none, none] := by
  intro mid e g nu
  simp [mat1ListFields, blankIfDefault, mat1GField]

/-- Claim C9 counterexample: concrete id 5 is in the map and never
referenced by any aggregate member list (the only member is 7), but the
aggregate row with `sid = 5` claims the key: the result maps 5 to the
aggregate reduction `[(1, [1])]`, not to `[(1.0, map[5])] = [(1, [0])]`. -/
theorem unreferenced_id_shadowed_by_aggregate_sid :
    getReducedLoads (L := Nat)
        { load_id := [5], scale := [1], nloads := [1],
          load_ids := [7], scale_factors := [1] }
        [(5, [0]), (7, [1])] false true =
      .ok [(5, [(1, [1])]), (7, [(1, [1])])] ∧
    ((5 : Int), ([0] : List Nat)) ∈ ([(5, [0]), (7, [1])] : Dict (List Nat)) ∧
    (5 : Int) ∉ ([7] : List Int) ∧
    dlookup 5 ([(5, [(1, [1])]), (7, [(1, [1])])] : Dict (List (ℚ × List Nat))) ≠
      some [(1, [0])] := by
  refine ⟨?_, by decide, by decide, ?_⟩
  · norm_num [getReducedLoads, grlRows, grlMembers, grlTrailing, dset, dmem, dlookup,
      sliceFlat, makeIdim, makeIdimFrom]
  · norm_num [dlookup]

theorem mem_insertSortedDedup (x a : Int) :
    ∀ l : List Int, (a ∈ insertSortedDedup x l ↔ a = x ∨ a ∈ l)
  | [] => by simp [insertSortedDedup]
  | y :: ys => by
    unfold insertSortedDedup
    split
    · simp
    · split
      · rename_i hxy
        subst hxy
        simp only [List.mem_cons]
        tauto
      · simp only [List.mem_cons, mem_insertSortedDedup x a ys]
        tauto

theorem sorted_insertSortedDedup (x : Int) :
    ∀ l : List Int, l.Sorted (· < ·) → (insertSortedDedup x l).Sorted (· < ·)
  | [], _ => by simp [insertSortedDedup]
  | y :: ys, h => by
    rw [List.sorted_cons] at h
    obtain ⟨hy, hys⟩ := h
    unfold insertSortedDedup
    split
    · rename_i hxy
      rw [List.sorted_cons]
      refine ⟨?_, by rw [List.sorted_cons]; exact ⟨hy, hys⟩⟩
      intro b hb
      rcases List.mem_cons.mp hb with hb | hb
      · exact hb ▸ hxy
      · exact lt_trans hxy (hy b hb)
    · split
      · rw [List.sorted_cons]
        exact ⟨hy, hys⟩
      · rename_i hlt heq
        rw [List.sorted_cons]
        constructor
        · intro b hb
          rcases (mem_insertSortedDedup x b ys).mp hb with hb | hb
          · subst hb
            omega
          · exact hy b hb
        · exact sorted_insertSortedDedup x ys hys

theorem npUnique_sorted : ∀ l : List Int, (npUnique l).Sorted (· < ·)
  | [] => by simp [npUnique]
  | y :: ys => by
    have h : npUnique (y :: ys) = insertSortedDedup y (npUnique ys) := rfl
    rw [h]
    exact sorted_insertSortedDedup y (npUnique ys) (npUnique_sorted ys)

theorem npUnique_mem (a : Int) : ∀ l : List Int, (a ∈ npUnique l ↔ a ∈ l)
  | [] => by simp [npUnique]
  | y :: ys => by
    have h : npUnique (y :: ys) = insertSortedDedup y (npUnique ys) := rfl
    rw [h, mem_insertSortedDedup, npUnique_mem a ys]
    simp

/-- Claim C10 (confirmed): `ADD.add_card` stages the member list after a
unique-and-sort step (`np.unique`), so the stored list is strictly
increasing, duplicate free, and has exactly the members of the input line;
the programmatic `ADD.add` stages the member list exactly as given. -/
theorem add_card_members_sorted_unique :
    ∀ (sid : Int) (fields2 sets : List Int),
      (addStagedAddCard sid fields2).1 = sid ∧
      ((addStagedAddCard sid fields2).2).Sorted (· < ·) ∧
      (∀ x : Int, x ∈ (addStagedAddCard sid fields2).2 ↔ x ∈ fields2) ∧
      addStagedAdd sid sets = (sid, sets) := by
  intro sid fields2 sets
  exact ⟨rfl, npUnique_sorted fields2, fun x => npUnique_mem x fields2, rfl⟩

theorem le_foldl_max_init : ∀ (xs : List Int) (a : Int), a ≤ xs.foldl max a
  | [], _ => le_refl _
  | y :: ys, a =>
    le_trans (le_max_left a y) (le_foldl_max_init ys (max a y))

theorem le_foldl_max_mem : ∀ (xs : List Int) (a x : Int), x ∈ xs → x ≤ xs.foldl max a
  | [], _, _, hx => absurd hx (List.not_mem_nil _)
  | y :: ys, a, x, hx => by
    rcases List.mem_cons.mp hx with hx | hx
    · subst hx
      exact le_trans (le_max_right a x) (le_foldl_max_init ys (max a x))
    · exact le_foldl_max_mem ys (max a y) x hx

theorem foldl_max_le : ∀ (xs : List Int) (a b : Int),
    a ≤ b → (∀ x ∈ xs, x ≤ b) → xs.foldl max a ≤ b
  | [], _, _, ha, _ => ha
  | y :: ys, a, b, ha, hxs => by
    refine foldl_max_le ys (max a y) b ?_ (fun x hx => hxs x (List.mem_cons_of_mem y hx))
    exact max_le ha (hxs y (List.mem_cons_self y ys))

theorem le_listMax {l : List Int} {x : Int} (hx : x ∈ l) : x ≤ listMax l := by
  cases l with
  | nil => exact absurd hx (List.not_mem_nil _)
  | cons y ys =>
    rcases List.mem_cons.mp hx with h | h
    · subst h
      exact le_foldl_max_init ys x
    · exact le_foldl_max_mem ys y x h

theorem listMax_le {l : List Int} {b : Int} (hb : 0 ≤ b)
    (hl : ∀ x ∈ l, x ≤ b) : listMax l ≤ b := by
  cases l with
  | nil => exact hb
  | cons y ys =>
    exact foldl_max_le ys y b (hl y (List.mem_cons_self y ys))
      (fun x hx => hl x (List.mem_cons_of_mem y hx))

/-- Claim C7 amended: `MPCADD.write_file` promotes the effective width to
16 exactly when `max(mpc_id.max(), mpc_ids.max()) ≥ 99_999_999`: every
table containing an id that does not fit 8 characters is promoted (in
particular one with id 100,000,000), a table whose ids are all at most
99,999,998 stays small-field at size 8, but the boundary value 99,999,999
— which does fit 8 characters — is promoted as well. -/
theorem mpcadd_width_promotion_threshold :
    ∀ t : ADDTable,
      ((∃ i ∈ t.sid ++ t.sids, specFitsSmallField i = false) →
        mpcaddPrintSize 8 t = 16) ∧
      (addMaxId t = 99999999 → mpcaddPrintSize 8 t = 16) ∧
      ((∀ i ∈ t.sid ++ t.sids, i ≤ 99999998) → mpcaddPrintSize 8 t = 8) := by
  intro t
  refine ⟨?_, ?_, ?_⟩
  · rintro ⟨i, hi, hfit⟩
    have hbig : (99999999 : Int) < i := by
      simpa [specFitsSmallField] using hfit
    have hle : i ≤ addMaxId t := by
      rcases List.mem_append.mp hi with h | h
      · exact le_trans (le_listMax h) (le_max_left _ _)
      · exact le_trans (le_listMax h) (le_max_right _ _)
    have : ¬ (addMaxId t < 99999999) := by omega
    simp [mpcaddPrintSize, mpcaddIsSmallField, this]
  · intro heq
    have : ¬ (addMaxId t < 99999999) := by omega
    simp [mpcaddPrintSize, mpcaddIsSmallField, this]
  · intro hall
    have h1 : listMax t.sid ≤ 99999998 :=
      listMax_le (by norm_num)
        (fun x hx => hall x (List.mem_append.mpr (Or.inl hx)))
    have h2 : listMax t.sids ≤ 99999998 :=
      listMax_le (by norm_num)
        (fun x hx => hall x (List.mem_append.mpr (Or.inr hx)))
    have : addMaxId t < 99999999 := by
      unfold addMaxId
      omega
    simp [mpcaddPrintSize, mpcaddIsSmallField, this]

/-- Witness for the amended width-promotion claim: a table with id
100,000,000 is written large-field at size 8, and a table with ids 5, 1, 2
stays small-field. -/
theorem mpcadd_width_promotion_threshold_witness :
    mpcaddPrintSize 8 { n := 1, sid := [100000000], sids := [1], nsids := [1] } = 16 ∧
    mpcaddPrintSize 8 { n := 1, sid := [5], sids := [1, 2], nsids := [2] } = 8 := by
  constructor
  · exact (mpcadd_width_promotion_threshold _).1 ⟨100000000, by decide, by decide⟩
  · exact (mpcadd_width_promotion_threshold _).2.2 (by decide)

theorem dlookup_mem {α : Type} {k : Int} {v : α} :
    ∀ {d : Dict α}, dlookup k d = some v → (k, v) ∈ d := by
  intro d
  induction d with
  | nil => intro h; cases h
  | cons p rest ih =>
    obtain ⟨k2, v2⟩ := p
    intro h
    unfold dlookup at h
    split at h
    · rename_i hk
      injection h with h2
      subst hk
      subst h2
      exact List.mem_cons_self _ _
    · exact List.mem_cons_of_mem _ (ih h)

theorem grlMembers_isOk {L : Type} (map : Dict (List L)) (f : Bool)
    (hmap : ∀ p ∈ map, p.2 ≠ ([] : List L)) :
    ∀ ms : List (ℚ × Int), ∃ li, grlMembers map f ms = .ok li := by
  intro ms
  induction ms with
  | nil => exact ⟨[], rfl⟩
  | cons m rest ih =>
    obtain ⟨sf, lid⟩ := m
    obtain ⟨li, hli⟩ := ih
    unfold grlMembers
    split
    · exact ⟨li, hli⟩
    · cases hl : dlookup lid map with
      | none =>
        simp only [hl]
        exact ⟨li, hli⟩
      | some found =>
        have hne : found ≠ [] := hmap (lid, found) (dlookup_mem hl)
        have hemp : found.isEmpty = false := by
          cases found with
          | nil => exact absurd rfl hne
          | cons a l => rfl
        refine ⟨(sf, found) :: li, ?_⟩
        simp [hl, hemp, hli]

theorem grlRows_isOk {L : Type} (map : Dict (List L)) (f : Bool)
    (fs : List ℚ) (fi : List Int)
    (hmap : ∀ p ∈ map, p.2 ≠ ([] : List L)) :
    ∀ (rows : List (Int × ℚ × Nat × Nat)) (acc : Dict (List (ℚ × List L))),
      ∃ d, grlRows map f fs fi rows acc = .ok d := by
  intro rows
  induction rows with
  | nil => exact fun acc => ⟨acc, rfl⟩
  | cons r rest ih =>
    obtain ⟨sid, gscale, i0, i1⟩ := r
    intro acc
    unfold grlRows
    split
    · exact ih acc
    · obtain ⟨li, hli⟩ :=
        grlMembers_isOk map f hmap
          (((sliceFlat fs (i0, i1)).map (fun s => gscale * s)).zip
            (sliceFlat fi (i0, i1)))
      simp only [hli]
      split
      · exact ih acc
      · exact ih (dset sid li acc)

theorem grsMembers_error {S : Type} (map : Dict (List S)) :
    ∀ ms : List Int, (∃ m ∈ ms, dlookup m map = none) →
      ∃ e, grsMembers map ms = .error e := by
  intro ms
  induction ms with
  | nil => rintro ⟨m, hm, _⟩; exact absurd hm (List.not_mem_nil m)
  | cons m0 rest ih =>
    rintro ⟨m, hm, hnone⟩
    unfold grsMembers
    cases hl : dlookup m0 map with
    | none =>
      refine ⟨"KeyError", ?_⟩
      simp [hl]
    | some found =>
      have hm0 : m ∈ rest := by
        rcases List.mem_cons.mp hm with h | h
        · subst h
          rw [hl] at hnone
          cases hnone
        · exact h
      cases hfe : found.isEmpty with
      | true =>
        refine ⟨"No referenced SPCs found", ?_⟩
        simp [hl, hfe]
      | false =>
        obtain ⟨e, he⟩ := ih ⟨m, hm0, hnone⟩
        refine ⟨e, ?_⟩
        simp [hl, hfe, he]

theorem grsRows_error {S : Type} (map : Dict (List S)) (flat : List Int) :
    ∀ (rows : List (Int × Nat × Nat)),
      (∃ r ∈ rows, ∃ m ∈ sliceFlat flat r.2, dlookup m map = none) →
      ∀ acc, ∃ e, grsRows map flat rows acc = .error e := by
  intro rows
  induction rows with
  | nil => rintro ⟨r, hr, _⟩ acc; exact absurd hr (List.not_mem_nil r)
  | cons r0 rest ih =>
    obtain ⟨sid0, i0, i1⟩ := r0
    rintro ⟨r, hr, m, hm, hnone⟩ acc
    unfold grsRows
    rcases List.mem_cons.mp hr with h | h
    · subst h
      obtain ⟨e, he⟩ := grsMembers_error map (sliceFlat flat (i0, i1)) ⟨m, hm, hnone⟩
      rw [he]
      exact ⟨e, rfl⟩
    · cases hms : grsMembers map (sliceFlat flat (i0, i1)) with
      | error e => exact ⟨e, rfl⟩
      | ok li => exact ih ⟨r, h, m, hm, hnone⟩ (dset sid0 li acc)

/-- Claim C6 amended: both reduction functions rebind `stop_on_failure` to
`True` on entry, so the caller-supplied flag has no effect in either
direction.  In `get_reduced_loads` a member id absent from the concrete
map never raises for any flag value — it is logged and skipped, and the
call succeeds whenever every map entry is nonempty; in
`SPCADD.get_reduced_spcs` a member id absent from the SPC map always
raises, for any flag value. -/
theorem reduction_stop_on_failure_is_overridden :
    (∀ (L : Type) (tbl : LOADTable) (map : Dict (List L))
        (f stopOnFailure : Bool),
      (∀ p ∈ map, p.2 ≠ ([] : List L)) →
      ∃ d, getReducedLoads tbl map f stopOnFailure = .ok d) ∧
    (∀ (S : Type) (tbl : ADDTable) (map : Dict (List S)) (stopOnFailure : Bool),
      (∃ r ∈ addRefRows tbl, ∃ m ∈ sliceFlat tbl.sids r.2, dlookup m map = none) →
      ∃ e, getReducedSpcs tbl map stopOnFailure = .error e) := by
  constructor
  · intro L tbl map f stopOnFailure hmap
    unfold getReducedLoads
    split
    · exact ⟨[], rfl⟩
    · obtain ⟨d, hd⟩ := grlRows_isOk map f tbl.scale_factors tbl.load_ids hmap
        ((tbl.load_id.zip (tbl.scale_factors.zip (makeIdim tbl.nloads))).map
          (fun r => (r.1, r.2.1, r.2.2.1, r.2.2.2))) []
      refine ⟨grlTrailing d map, ?_⟩
      simp only [hd]
  · intro S tbl map stopOnFailure hmiss
    exact grsRows_error map tbl.sids (addRefRows tbl) hmiss []

/-- Witness for the amended stop-on-failure claim: with
`stop_on_failure=False` a load reduction over a nonempty-valued map
succeeds, and an SPCADD reduction with an unresolvable member id fails. -/
theorem reduction_stop_on_failure_is_overridden_witness :
    (∃ d, getReducedLoads (L := Nat)
        { load_id := [1], scale := [2], nloads := [1],
          load_ids := [10], scale_factors := [3] }
        [(10, [0])] false false = .ok d) ∧
    (∃ e, getReducedSpcs (S := Nat)
        { n := 1, sid := [1], sids := [3], nsids := [1] } [] false = .error e) := by
  constructor
  · exact reduction_stop_on_failure_is_overridden.1 Nat _ _ false false (by decide)
  · exact reduction_stop_on_failure_is_overridden.2 Nat _ _ false
      ⟨(1, 0, 1), by decide, 3, by decide, rfl⟩

theorem dlookup_dset_self {α : Type} (k : Int) (v : α) :
    ∀ d : Dict α, dlookup k (dset k v d) = some v
  | [] => by simp [dset, dlookup]
  | (k2, v2) :: rest => by
    unfold dset
    split
    · rename_i hk
      simp only [dlookup, if_pos hk]
    · rename_i hk
      simp only [dlookup, if_neg hk]
      exact dlookup_dset_self k v rest

theorem dlookup_dset_ne {α : Type} {k k2 : Int} (hne : k2 ≠ k) (v : α) :
    ∀ d : Dict α, dlookup k (dset k2 v d) = dlookup k d
  | [] => by simp [dset, dlookup, if_neg hne]
  | (k3, v3) :: rest => by
    unfold dset
    split
    · rename_i hk
      have h3 : k3 ≠ k := by rw [hk]; exact hne
      simp only [dlookup, if_neg h3]
    · by_cases hk3 : k3 = k
      · simp only [dlookup, if_pos hk3]
      · simp only [dlookup, if_neg hk3]
        exact dlookup_dset_ne hne v rest

theorem dmem_dset_cases {α : Type} {k k2 : Int} {v : α} {d : Dict α}
    (h : dmem k (dset k2 v d) = true) : k = k2 ∨ dmem k d = true := by
  by_cases hk : k2 = k
  · exact Or.inl hk.symm
  · right
    unfold dmem at h ⊢
    rw [dlookup_dset_ne hk v d] at h
    exact h

theorem grlRows_keys {L : Type} (map : Dict (List L)) (f : Bool)
    (fs : List ℚ) (fi : List Int) :
    ∀ (rows : List (Int × ℚ × Nat × Nat)) (acc d : Dict (List (ℚ × List L))),
      grlRows map f fs fi rows acc = .ok d →
      ∀ k, dmem k d = true →
        dmem k acc = true ∨ k ∈ rows.map (fun r => r.1) := by
  intro rows
  induction rows with
  | nil =>
    intro acc d h k hk
    unfold grlRows at h
    injection h with h2
    subst h2
    exact Or.inl hk
  | cons r rest ih =>
    obtain ⟨sid, gscale, i0, i1⟩ := r
    intro acc d h k hk
    unfold grlRows at h
    split at h
    · rcases ih acc d h k hk with h2 | h2
      · exact Or.inl h2
      · exact Or.inr (List.mem_cons_of_mem _ h2)
    · cases hms : grlMembers map f
          (((sliceFlat fs (i0, i1)).map (fun s => gscale * s)).zip
            (sliceFlat fi (i0, i1))) with
      | error e =>
        simp only [hms] at h
        cases h
      | ok li =>
        simp only [hms] at h
        split at h
        · rcases ih acc d h k hk with h2 | h2
          · exact Or.inl h2
          · exact Or.inr (List.mem_cons_of_mem _ h2)
        · rcases ih (dset sid li acc) d h k hk with h2 | h2
          · rcases dmem_dset_cases h2 with h3 | h3
            · subst h3
              exact Or.inr (List.mem_cons_self _ _)
            · exact Or.inl h3
          · exact Or.inr (List.mem_cons_of_mem _ h2)

theorem grlTrailing_preserve {L : Type} {lid : Int} {x : List (ℚ × List L)} :
    ∀ (entries : Dict (List L)) (acc : Dict (List (ℚ × List L))),
      dlookup lid acc = some x → lid ∉ entries.map Prod.fst →
      dlookup lid (grlTrailing acc entries) = some x
  | [], acc, hacc, _ => hacc
  | (k, v) :: rest, acc, hacc, hnot => by
    have hk : k ≠ lid := by
      intro h
      exact hnot (by simp [h])
    have hnot2 : lid ∉ rest.map Prod.fst := by
      intro h
      exact hnot (by simp [h])
    unfold grlTrailing
    split
    · exact grlTrailing_preserve rest acc hacc hnot2
    · have hacc2 : dlookup lid (dset k [(1, v)] acc) = some x := by
        rw [dlookup_dset_ne hk]
        exact hacc
      exact grlTrailing_preserve rest _ hacc2 hnot2

theorem grlTrailing_adds {L : Type} (lid : Int) (loads : List L) :
    ∀ (entries : Dict (List L)) (acc : Dict (List (ℚ × List L))),
      (lid, loads) ∈ entries → (entries.map Prod.fst).Nodup →
      dmem lid acc = false →
      dlookup lid (grlTrailing acc entries) = some [(1, loads)]
  | [], _, hmem, _, _ => absurd hmem (List.not_mem_nil _)
  | (k, v) :: rest, acc, hmem, hnodup, hacc => by
    rw [List.map_cons, List.nodup_cons] at hnodup
    obtain ⟨hknotin, hnodup2⟩ := hnodup
    unfold grlTrailing
    rcases List.mem_cons.mp hmem with heq | hmem2
    · cases heq
      split
      · rename_i hdm
        rw [hacc] at hdm
        cases hdm
      · exact grlTrailing_preserve rest _ (dlookup_dset_self lid [(1, loads)] acc)
          hknotin
    · have hk : k ≠ lid := by
        intro h
        subst h
        exact hknotin (List.mem_map.mpr ⟨(k, loads), hmem2, rfl⟩)
      split
      · exact grlTrailing_adds lid loads rest acc hmem2 hnodup2 hacc
      · have hacc2 : dmem lid (dset k [(1, v)] acc) = false := by
          unfold dmem at hacc ⊢
          rw [dlookup_dset_ne hk]
          exact hacc
        exact grlTrailing_adds lid loads rest _ hmem2 hnodup2 hacc2

/-- Claim C9 amended: a concrete load id present in the map and never
referenced by any aggregate member is included in the result under its own
id with unit scale, provided the aggregate table is nonempty and the id is
not also the `load_id` of an aggregate row (an aggregate row with the same
id and a nonempty reduction claims the key for its own reduction instead,
and an empty aggregate table short-circuits to an empty result). -/
theorem unreferenced_ids_included_at_unit_scale :
    ∀ (L : Type) (tbl : LOADTable) (map : Dict (List L)) (f s : Bool)
      (d : Dict (List (ℚ × List L))) (lid : Int) (loads : List L),
      getReducedLoads tbl map f s = .ok d →
      (lid, loads) ∈ map →
      (map.map Prod.fst).Nodup →
      tbl.load_id ≠ [] →
      lid ∉ tbl.load_id →
      lid ∉ tbl.load_ids →
      dlookup lid d = some [(1, loads)] := by
  intro L tbl map f s d lid loads hrun hmem hnodup hne hnotid hnotref
  unfold getReducedLoads at hrun
  split at hrun
  · rename_i hemp
    exact absurd (List.isEmpty_iff.mp hemp) hne
  · cases hrows : grlRows map f tbl.scale_factors tbl.load_ids
        ((tbl.load_id.zip (tbl.scale_factors.zip (makeIdim tbl.nloads))).map
          (fun r => (r.1, r.2.1, r.2.2.1, r.2.2.2))) [] with
    | error e =>
      simp only [hrows] at hrun
      cases hrun
    | ok d0 =>
      simp only [hrows] at hrun
      injection hrun with hd
      subst hd
      have hkeys : dmem lid d0 = false := by
        cases hdm : dmem lid d0 with
        | false => rfl
        | true =>
          rcases grlRows_keys map f tbl.scale_factors tbl.load_ids _ [] d0
              hrows lid hdm with h | h
          · simp [dmem, dlookup] at h
          · exfalso
            simp only [List.map_map] at h
            obtain ⟨a, ha, hfa⟩ := List.mem_map.mp h
            obtain ⟨a1, a2⟩ := a
            have := (List.of_mem_zip ha).1
            simp only [Function.comp] at hfa
            rw [hfa] at this
            exact hnotid this
      exact grlTrailing_adds lid loads map d0 hmem hnodup hkeys

/-- Witness for the amended unit-scale claim: id 9 is in the map, is not
an aggregate row id and is never referenced; the result keeps it at unit
scale. -/
theorem unreferenced_ids_included_at_unit_scale_witness :
    dlookup 9 ([(5, [(1, [1])]), (7, [(1, [1])]), (9, [(1, [2])])] :
        Dict (List (ℚ × List Nat))) = some [(1, [2])] := by
  refine unreferenced_ids_included_at_unit_scale Nat
      { load_id := [5], scale := [1], nloads := [1],
        load_ids := [7], scale_factors := [1] }
      [(7, [1]), (9, [2])] false true
      [(5, [(1, [1])]), (7, [(1, [1])]), (9, [(1, [2])])] 9 [2]
      ?_ (by decide) (by decide) (by decide) (by decide) (by decide)
  norm_num [getReducedLoads, grlRows, grlMembers, grlTrailing, dset, dmem, dlookup,
    sliceFlat, makeIdim, makeIdimFrom]

end PyNastranSpec
